import Mathlib

/-!
Verification of the nodepred pipeline generator
(`python/dgl/enter/pipeline/nodepred/gen.py`).

The development shallowly embeds the configuration values handled by the
generator as a tree of YAML/Python values (`Val`), the pydantic models
`NodepredPipelineCfg` / `NodePredUserConfig` as Lean structures with
explicit validation functions, and the two operations of the module:
`get_cfg_func` (config generation) and `gen_script` (script generation).

Python `dict`s are modelled as association lists with unique keys; since a
Python dict can never hold a duplicate key, `eraseKey` (the model of
`dict.pop`) removes every occurrence of the key, which coincides with
Python's behaviour on every representable dictionary.

Collaborating code of this repository that is not part of the analysed
source file (the `UserConfig` base class, the dataset/model factories, the
`merge_comment` helper, the YAML round trip and the Jinja template) is
modelled from the specification; each such definition carries a doc
comment saying so.
-/

/-- Value tree for YAML documents / Python dicts handled by the generator.
Floats (the default learning rate 0.005) never take part in arithmetic in
the source, so they are carried as their literal token. -/
inductive Val where
  | s : String → Val
  | i : Int → Val
  | flt : String → Val
  | d : List (String × Val) → Val
deriving Repr

/-- Key lookup in a dictionary, the model of Python `d[k]` (first match;
keys of a Python dict are unique). -/
def lookup : List (String × Val) → String → Option Val
  | [], _ => none
  | (k, v) :: rest, key => if k = key then some v else lookup rest key

/-- Key removal, the model of a successful Python `d.pop(k)`: every
occurrence of the key is removed (a Python dict holds at most one). -/
def eraseKey : List (String × Val) → String → List (String × Val)
  | [], _ => []
  | (k, v) :: rest, key =>
      if k = key then eraseKey rest key else (k, v) :: eraseKey rest key

/-- Key update, the model of Python `d[k] = v`: replaces the value in
place when the key is present (keeping its position), appends otherwise. -/
def setKey : List (String × Val) → String → Val → List (String × Val)
  | [], key, v => [(key, v)]
  | (k, w) :: rest, key, v =>
      if k = key then (key, v) :: rest else (k, w) :: setKey rest key v

/-- Dictionary merge, the model of Python `d.update(other)`. -/
def updateKeys (d : List (String × Val)) : List (String × Val) → List (String × Val)
  | [] => d
  | (k, v) :: rest => updateKeys (setKey d k v) rest

theorem lookup_eraseKey_self (d : List (String × Val)) (k : String) :
    lookup (eraseKey d k) k = none := by
  induction d with
  | nil => rfl
  | cons kv rest ih =>
      obtain ⟨k1, v1⟩ := kv
      by_cases h : k1 = k
      · simp [eraseKey, h, ih]
      · simp [eraseKey, lookup, h, ih]

theorem lookup_eraseKey_ne (d : List (String × Val)) (k key : String)
    (h : k ≠ key) : lookup (eraseKey d k) key = lookup d key := by
  induction d with
  | nil => rfl
  | cons kv rest ih =>
      obtain ⟨k1, v1⟩ := kv
      by_cases h1 : k1 = k
      · subst h1
        simp [eraseKey, lookup, h, ih]
      · by_cases h2 : k1 = key
        · simp [eraseKey, lookup, h1, h2, Ne.symm h]
        · simp [eraseKey, lookup, h1, h2, ih]

theorem lookup_setKey_self (d : List (String × Val)) (k : String) (v : Val) :
    lookup (setKey d k v) k = some v := by
  induction d with
  | nil => simp [setKey, lookup]
  | cons kv rest ih =>
      obtain ⟨k1, v1⟩ := kv
      by_cases h : k1 = k
      · simp [setKey, h, lookup]
      · simp [setKey, lookup, h, ih]

theorem lookup_setKey_ne (d : List (String × Val)) (k key : String) (v : Val)
    (h : k ≠ key) : lookup (setKey d k v) key = lookup d key := by
  induction d with
  | nil => simp [setKey, lookup, h]
  | cons kv rest ih =>
      obtain ⟨k1, v1⟩ := kv
      by_cases h1 : k1 = k
      · subst h1
        simp [setKey, lookup, h, Ne.symm h]
      · by_cases h2 : k1 = key
        · simp [setKey, lookup, h1, h2, Ne.symm h]
        · simp [setKey, lookup, h1, h2, ih]

/-- Single-quote character, used by the model of Python `str()` on dicts. -/
def sglq : String := String.singleton (Char.ofNat 39)

mutual
/-- Model of Python `str()` on the values embedded by the generator
(`str(generated_user_cfg)` in `gen_script`): strings print single-quoted,
dicts print brace-delimited with `key: value` pairs in insertion order. -/
def pyStr : Val → String
  | .s x => sglq ++ x ++ sglq
  | .i n => toString n
  | .flt f => f
  | .d es => "\x7b" ++ pyStrEntries es ++ "\x7d"

/-- Comma-separated rendering of dict entries for `pyStr`. -/
def pyStrEntries : List (String × Val) → String
  | [] => ""
  | [(k, v)] => sglq ++ k ++ sglq ++ ": " ++ pyStr v
  | (k, v) :: rest => sglq ++ k ++ sglq ++ ": " ++ pyStr v ++ ", " ++ pyStrEntries rest
end

/-- Value tree annotated with per-key comments, the model of the
`ruamel.yaml` `CommentedMap` produced by `merge_comment`: each dictionary
entry optionally carries a comment attached to its key. -/
inductive CVal where
  | s : String → CVal
  | i : Int → CVal
  | flt : String → CVal
  | d : List (String × Option String × CVal) → CVal
deriving Repr

mutual
/-- Lift a plain value tree into an uncommented annotated tree. -/
def toCVal : Val → CVal
  | .s x => .s x
  | .i n => .i n
  | .flt f => .flt f
  | .d es => .d (toCValEntries es)

/-- Entry-wise lifting for `toCVal`. -/
def toCValEntries : List (String × Val) → List (String × Option String × CVal)
  | [] => []
  | (k, v) :: rest => (k, none, toCVal v) :: toCValEntries rest
end

mutual
/-- Modelled from the spec: `merge_comment` from `utils/yaml_dump.py` is
not part of the analysed source. Per the contract, traversal is
structural: the result mirrors the value tree exactly; a comment string at
a key attaches to that key when the value tree has it, a nested comment
dict recurses into a nested value dict, and comment entries whose path
does not exist in the value tree are silently dropped. -/
def merge_comment : Val → Val → CVal
  | .d es, .d cm => .d (mergeEntries es cm)
  | v, _ => toCVal v

/-- Entry-wise merging for `merge_comment`: each value entry picks up the
comment registered under its own key, if any. -/
def mergeEntries : List (String × Val) → List (String × Val) →
    List (String × Option String × CVal)
  | [], _ => []
  | (k, v) :: rest, cm =>
      (match lookup cm k with
       | some (.s c) => (k, some c, toCVal v)
       | some (.d cm2) => (k, none, merge_comment v (.d cm2))
       | _ => (k, none, toCVal v)) :: mergeEntries rest cm
end

mutual
/-- Erase the comment annotations, the model of parsing back a dumped
YAML document (comments are invisible to the parser). -/
def stripComments : CVal → Val
  | .s x => .s x
  | .i n => .i n
  | .flt f => .flt f
  | .d es => .d (stripCommentsEntries es)

/-- Entry-wise comment erasure for `stripComments`. -/
def stripCommentsEntries : List (String × Option String × CVal) → List (String × Val)
  | [] => []
  | (k, _, v) :: rest => (k, stripComments v) :: stripCommentsEntries rest
end

/-- Key lookup in an annotated dictionary. -/
def lookupC : List (String × Option String × CVal) → String → Option (Option String × CVal)
  | [], _ => none
  | (k, c, v) :: rest, key => if k = key then some (c, v) else lookupC rest key

/-- Comment attached at a key path of an annotated tree: the comment of
the final key, reached through nested dictionaries. -/
def commentAt : CVal → List String → Option String
  | .d es, [k] =>
      (match lookupC es k with
       | some (c, _) => c
       | none => none)
  | .d es, k :: rest =>
      (match lookupC es k with
       | some (_, v) => commentAt v rest
       | none => none)
  | _, _ => none

/-- Whether a key path exists in a plain value tree. -/
def pathExists : Val → List String → Bool
  | _, [] => true
  | .d es, k :: rest =>
      (match lookup es k with
       | some v => pathExists v rest
       | none => false)
  | _, _ :: _ => false

mutual
theorem stripComments_toCVal (v : Val) : stripComments (toCVal v) = v := by
  cases v with
  | s x => rfl
  | i n => rfl
  | flt f => rfl
  | d es => simp [toCVal, stripComments, stripCommentsEntries_toCValEntries]

theorem stripCommentsEntries_toCValEntries (es : List (String × Val)) :
    stripCommentsEntries (toCValEntries es) = es := by
  cases es with
  | nil => rfl
  | cons kv rest =>
      obtain ⟨k, v⟩ := kv
      simp [toCValEntries, stripCommentsEntries, stripComments_toCVal,
        stripCommentsEntries_toCValEntries]
end

mutual
theorem stripComments_merge_comment (v c : Val) :
    stripComments (merge_comment v c) = v := by
  cases v with
  | s x => cases c <;> simp [merge_comment, stripComments_toCVal]
  | i n => cases c <;> simp [merge_comment, stripComments_toCVal]
  | flt f => cases c <;> simp [merge_comment, stripComments_toCVal]
  | d es =>
      cases c with
      | s x => simp [merge_comment, stripComments_toCVal]
      | i n => simp [merge_comment, stripComments_toCVal]
      | flt f => simp [merge_comment, stripComments_toCVal]
      | d cm => simp [merge_comment, stripComments, stripCommentsEntries_mergeEntries]

theorem stripCommentsEntries_mergeEntries (es cm : List (String × Val)) :
    stripCommentsEntries (mergeEntries es cm) = es := by
  cases es with
  | nil => rfl
  | cons kv rest =>
      obtain ⟨k, v⟩ := kv
      cases h : lookup cm k with
      | none =>
          simp [mergeEntries, h, stripCommentsEntries, stripComments_toCVal,
            stripCommentsEntries_mergeEntries]
      | some cv =>
          cases cv <;>
            simp [mergeEntries, h, stripCommentsEntries, stripComments_toCVal,
              stripComments_merge_comment, stripCommentsEntries_mergeEntries]
end

theorem commentAt_nil (cv : CVal) : commentAt cv [] = none := by
  cases cv <;> rfl

theorem lookupC_toCValEntries (es : List (String × Val)) (key : String) :
    lookupC (toCValEntries es) key
      = (lookup es key).map (fun v => ((none : Option String), toCVal v)) := by
  induction es with
  | nil => rfl
  | cons kv rest ih =>
      obtain ⟨k, v⟩ := kv
      by_cases h : k = key <;> simp [toCValEntries, lookupC, lookup, h, ih]

theorem commentAt_toCVal (p : List String) (k : String) (v : Val) :
    commentAt (toCVal v) (k :: p) = none := by
  induction p generalizing k v with
  | nil =>
      cases v with
      | s x => rfl
      | i n => rfl
      | flt f => rfl
      | d es =>
          simp [toCVal, commentAt, lookupC_toCValEntries]
          cases lookup es k <;> simp
  | cons k2 p2 ih =>
      cases v with
      | s x => rfl
      | i n => rfl
      | flt f => rfl
      | d es =>
          simp [toCVal, commentAt, lookupC_toCValEntries]
          cases lookup es k with
          | none => simp
          | some vv => simp [ih]

/-- Merged annotation of one entry: the comment registered under the
entry's key decides whether a comment attaches or the merge recurses. -/
def mergeOne (v : Val) : Option Val → Option String × CVal
  | some (.s c) => (some c, toCVal v)
  | some (.d cm2) => (none, merge_comment v (.d cm2))
  | _ => (none, toCVal v)

theorem lookupC_mergeEntries (es cm : List (String × Val)) (key : String) :
    lookupC (mergeEntries es cm) key
      = (lookup es key).map (fun v => mergeOne v (lookup cm key)) := by
  induction es with
  | nil => rfl
  | cons kv rest ih =>
      obtain ⟨k, v⟩ := kv
      by_cases h : k = key
      · subst h
        cases hcm : lookup cm k with
        | none => simp [mergeEntries, hcm, lookupC, lookup, mergeOne]
        | some c =>
            cases c <;> simp [mergeEntries, hcm, lookupC, lookup, mergeOne]
      · cases hcm : lookup cm k with
        | none => simp [mergeEntries, hcm, lookupC, lookup, h, ih]
        | some c => cases c <;> simp [mergeEntries, hcm, lookupC, lookup, h, ih]

theorem commentAt_merge_pathExists (p : List String) (v c : Val) (s0 : String)
    (h : commentAt (merge_comment v c) p = some s0) : pathExists v p = true := by
  induction p generalizing v c with
  | nil => rw [commentAt_nil] at h; exact absurd h (by simp)
  | cons k rest ih =>
      cases v with
      | s x => cases c <;> simp [merge_comment, commentAt_toCVal] at h
      | i n => cases c <;> simp [merge_comment, commentAt_toCVal] at h
      | flt f => cases c <;> simp [merge_comment, commentAt_toCVal] at h
      | d es =>
          cases c with
          | s x => simp [merge_comment, commentAt_toCVal] at h
          | i n => simp [merge_comment, commentAt_toCVal] at h
          | flt f => simp [merge_comment, commentAt_toCVal] at h
          | d cm =>
              cases rest with
              | nil =>
                  simp only [merge_comment, commentAt, lookupC_mergeEntries] at h
                  cases hek : lookup es k with
                  | none => rw [hek] at h; simp at h
                  | some vv => simp [pathExists, hek]
              | cons r1 r2 =>
                  simp only [merge_comment, commentAt, lookupC_mergeEntries] at h
                  cases hek : lookup es k with
                  | none => rw [hek] at h; simp at h
                  | some vv =>
                      rw [hek] at h
                      cases hcm : lookup cm k with
                      | none =>
                          rw [hcm] at h
                          simp [mergeOne, commentAt_toCVal] at h
                      | some cv =>
                          rw [hcm] at h
                          cases cv with
                          | s x => simp [mergeOne, commentAt_toCVal] at h
                          | i n => simp [mergeOne, commentAt_toCVal] at h
                          | flt f => simp [mergeOne, commentAt_toCVal] at h
                          | d cm2 =>
                              have h2 : commentAt (merge_comment vv (Val.d cm2))
                                  (r1 :: r2) = some s0 := by
                                simpa [mergeOne] using h
                              simp [pathExists, hek, ih _ _ h2]

theorem except_bind_ok {ε α β : Type} {x : Except ε α} {f : α → Except ε β} {b : β} :
    (x >>= f) = .ok b ↔ ∃ a, x = .ok a ∧ f a = .ok b := by
  cases x <;> simp [Bind.bind, Except.bind]

/-- Conversion of a value to an integer, the model of pydantic accepting
an `int` field. -/
def asIntV : Val → Except String Int
  | .i n => .ok n
  | _ => .error "value is not a valid integer"

/-- Conversion of a value to a string, the model of pydantic accepting a
`str` field. -/
def asStrV : Val → Except String String
  | .s x => .ok x
  | _ => .error "str type expected"

/-- Conversion of a value to a mapping, the model of pydantic accepting a
`dict` field or keyword expansion requiring a mapping. -/
def asDictV : Val → Except String (List (String × Val))
  | .d es => .ok es
  | _ => .error "value is not a valid dict"

/-- Integer field with a default: absent means the default, present must
be an integer. -/
def optIntField (es : List (String × Val)) (k : String) (dflt : Int) :
    Except String Int :=
  match lookup es k with
  | none => .ok dflt
  | some v => asIntV v

/-- String field with a default. -/
def optStrField (es : List (String × Val)) (k : String) (dflt : String) :
    Except String String :=
  match lookup es k with
  | none => .ok dflt
  | some v => asStrV v

/-- Dict field with a default. -/
def optDictField (es : List (String × Val)) (k : String)
    (dflt : List (String × Val)) : Except String (List (String × Val)) :=
  match lookup es k with
  | none => .ok dflt
  | some v => asDictV v

/-- Required field: absent is a validation error. -/
def reqField (es : List (String × Val)) (k : String) : Except String Val :=
  match lookup es k with
  | some v => .ok v
  | none => .error (k ++ ": field required")

/-- Modelled from the spec: `EarlyStopConfig` lives in
`utils/base_model.py`, which is not part of the analysed source. The spec
describes it as a patience count plus a checkpoint path, constructible
with no arguments (`EarlyStopConfig()`), so both fields carry defaults;
the concrete default values are not fixed by the spec and are chosen
arbitrarily here (no claim depends on them). -/
structure EarlyStopConfig where
  patience : Int := 20
  checkpoint_path : String := "checkpoint.pth"
deriving Repr, DecidableEq

/-- Validation of an `early_stop` sub-document against `EarlyStopConfig`. -/
def validateEarlyStop (v : Val) : Except String EarlyStopConfig := do
  let es ← asDictV v
  let p ← optIntField es "patience" 20
  let cp ← optStrField es "checkpoint_path" "checkpoint.pth"
  pure ⟨p, cp⟩

/-- Pipeline-level settings with their defaults, embedding the pydantic
model `NodepredPipelineCfg` of the source (lines 25-31):
`node_embed_size = -1`, `early_stop = EarlyStopConfig()`,
`num_epochs = 200`, `eval_period = 5`,
`optimizer = \x7b"name": "Adam", "lr": 0.005\x7d`,
`loss = "CrossEntropyLoss"`. -/
structure NodepredPipelineCfg where
  node_embed_size : Int := -1
  early_stop : EarlyStopConfig := {}
  num_epochs : Int := 200
  eval_period : Int := 5
  optimizer : List (String × Val) := [("name", .s "Adam"), ("lr", .flt "0.005")]
  loss : String := "CrossEntropyLoss"
deriving Repr

/-- Resolution of the `early_stop` field: the default `EarlyStopConfig()`
when absent, validated when present. -/
def early_stop_field (es : List (String × Val)) : Except String EarlyStopConfig :=
  match lookup es "early_stop" with
  | none => pure {}
  | some ev => validateEarlyStop ev

/-- Validation of a `general_pipeline` sub-document against
`NodepredPipelineCfg`: each absent field receives its default, each
present field must have the declared shape. -/
def validateNodepredPipelineCfg (v : Val) : Except String NodepredPipelineCfg := do
  let es ← asDictV v
  let nes ← optIntField es "node_embed_size" (-1)
  let est ← early_stop_field es
  let ne ← optIntField es "num_epochs" 200
  let ep ← optIntField es "eval_period" 5
  let opt ← optDictField es "optimizer" [("name", .s "Adam"), ("lr", .flt "0.005")]
  let ls ← optStrField es "loss" "CrossEntropyLoss"
  pure ⟨nes, est, ne, ep, opt, ls⟩

/-- Catalog of externally registered datasets and models, the model of
`DataFactory` / `NodeModelFactory` (external registries per the spec), and
of the template text of `nodepred.jinja-py`. -/
structure Catalog where
  datasets : List String
  models : List String
  get_source_code : String → String
  get_model_class_name : String → String
  get_generated_code_dict : String → String → List (String × Val)
  get_constructor_doc_dict : String → Val
  templateText : String

/-- Modelled from the spec: the validated `NodePredUserConfig` document.
The base class `UserConfig` of `utils/enter_config.py` is not part of the
analysed source; per the spec the document holds a pipeline identifier
string, a device in cpu/cuda, a dataset descriptor and a model
descriptor discriminated by their `name` field, and the embedded
`NodepredPipelineCfg` (this last field, with its default, is declared in
the analysed source in `setup_user_cfg_cls`). -/
structure UserConfig where
  pipeline_name : String
  device : String
  data : List (String × Val)
  model : List (String × Val)
  general_pipeline : NodepredPipelineCfg
deriving Repr

/-- Modelled from the spec: construction of `NodePredUserConfig` from an
untyped mapping (`cls.user_cfg_cls(**user_cfg_dict)`). Required fields
must be present; `device` must be cpu or cuda; `data.name` and
`model.name` must be registered variants; `general_pipeline` defaults to
`NodepredPipelineCfg()` when absent (default declared in the analysed
source). -/
def validate (cat : Catalog) (v : Val) : Except String UserConfig := do
  let es ← asDictV v
  let pn ← asStrV (← reqField es "pipeline_name")
  let dev ← asStrV (← reqField es "device")
  if dev = "cpu" ∨ dev = "cuda" then pure () else
    throw "device: value is not a valid enumeration member"
  let dEs ← asDictV (← reqField es "data")
  let dn ← asStrV (← reqField dEs "name")
  if cat.datasets.contains dn then pure () else
    throw "data.name: unknown dataset"
  let mEs ← asDictV (← reqField es "model")
  let mn ← asStrV (← reqField mEs "name")
  if cat.models.contains mn then pure () else
    throw "model.name: unknown model"
  let gp ← match lookup es "general_pipeline" with
    | none => pure ({} : NodepredPipelineCfg)
    | some gv => validateNodepredPipelineCfg gv
  pure ⟨pn, dev, dEs, mEs, gp⟩

/-- Serialization of an `EarlyStopConfig` back to a plain mapping, part
of the model of pydantic `.dict()`. -/
def EarlyStopConfig.toVal (c : EarlyStopConfig) : Val :=
  .d [("patience", .i c.patience), ("checkpoint_path", .s c.checkpoint_path)]

/-- Serialization of a `NodepredPipelineCfg` back to a plain mapping,
part of the model of pydantic `.dict()`. -/
def NodepredPipelineCfg.toVal (c : NodepredPipelineCfg) : Val :=
  .d [("node_embed_size", .i c.node_embed_size),
      ("early_stop", c.early_stop.toVal),
      ("num_epochs", .i c.num_epochs),
      ("eval_period", .i c.eval_period),
      ("optimizer", .d c.optimizer),
      ("loss", .s c.loss)]

/-- Serialization of a validated `UserConfig` back to a plain nested
mapping, the model of pydantic `.dict()` on the validated object. -/
def UserConfig.toVal (u : UserConfig) : Val :=
  .d [("pipeline_name", .s u.pipeline_name),
      ("device", .s u.device),
      ("data", .d u.data),
      ("model", .d u.model),
      ("general_pipeline", u.general_pipeline.toVal)]

/-- Static comment overlay for the pipeline hyperparameters, embedding
the module-level `pipeline_comments` dictionary of the source. -/
def pipeline_comments : Val :=
  .d [("node_embed_size", .s "The node learnable embedding size, -1 to disable"),
      ("num_epochs", .s "Number of training epochs"),
      ("eval_period", .s "Interval epochs between evaluations"),
      ("early_stop",
        .d [("patience", .s "Steps before early stop"),
            ("checkpoint_path", .s "Early stop checkpoint model file path")])]

/-- Modelled from the spec: `deep_convert_dict` from `utils/yaml_dump.py`
is not part of the analysed source; it recursively normalizes
non-primitive values (enum members) to their primitive serializable form.
In this embedding every value is already primitive, so the normalization
is the identity. -/
def deep_convert_dict (v : Val) : Val := v

/-- Draft configuration assembled by the `config` closure of
`get_cfg_func` before validation: pipeline identifier literal, device,
dataset name, model name, and the default `NodepredPipelineCfg` (the
source passes the pydantic object; its `.dict()` form is used here). -/
def assembleCfg (dataName modelName device : String) : Val :=
  .d [("pipeline_name", .s "nodepred"),
      ("device", .s device),
      ("data", .d [("name", .s dataName)]),
      ("model", .d [("name", .s modelName)]),
      ("general_pipeline", NodepredPipelineCfg.toVal {})]

/-- Config generation, embedding the `config` closure returned by
`NodepredPipeline.get_cfg_func`: assemble the draft, validate it, convert
the validated object back to a plain mapping, merge the comment overlay
(static pipeline comments plus the constructor docs of the chosen model),
and only then write the annotated document to the output path. The `.ok`
payload is the single file write performed, as a (path, content) pair;
an `.error` result models the validation error aborting the operation
before the output path is opened. -/
def get_cfg_func (cat : Catalog) (dataName cfgPath modelName device : String) :
    Except String (String × CVal) := do
  let u ← validate cat (assembleCfg dataName modelName device)
  let output_cfg := deep_convert_dict u.toVal
  let comment_dict : Val :=
    .d [("general_pipeline", pipeline_comments),
        ("model", cat.get_constructor_doc_dict modelName)]
  let merged := merge_comment output_cfg comment_dict
  pure (cfgPath, merged)

/-- Relative path of the script template read by `gen_script`
(`file_current_dir / "nodepred.jinja-py"`). -/
def templateFile : String := "nodepred.jinja-py"

/-- Failures of script generation: a pydantic validation error, a type
error on keyword expansion, or a `KeyError` raised by a subscript or
`pop` on a missing dictionary key. -/
inductive GenErr where
  | valErr : String → GenErr
  | typeErr : String → GenErr
  | keyError : String → GenErr
deriving Repr, DecidableEq

/-- Python subscript `d[k]` on a dict: raises `KeyError` when absent. -/
def getItem (es : List (String × Val)) (k : String) : Except GenErr Val :=
  match lookup es k with
  | some v => .ok v
  | none => .error (.keyError k)

/-- Python `d.pop(k)` without a default: `KeyError` when absent,
otherwise the dictionary with the key removed. -/
def popKey (es : List (String × Val)) (k : String) :
    Except GenErr (List (String × Val)) :=
  match lookup es k with
  | some _ => .ok (eraseKey es k)
  | none => .error (.keyError k)

/-- Requirement that a value is a dict (subscripting or popping a
non-dict value raises in Python). -/
def asDictE : Val → Except GenErr (List (String × Val))
  | .d es => .ok es
  | _ => .error (.typeErr "not a mapping")

/-- Requirement that a value is a string (factory lookups are keyed by
the name string). -/
def asStrE : Val → Except GenErr String
  | .s x => .ok x
  | _ => .error (.typeErr "not a string")

/-- Branch on the dataset descriptor in `gen_script` (lines 102-105 of
the source): drop the whole `data` entry of `generated_user_cfg` when the
descriptor has exactly one field, otherwise pop `data.name` in place. -/
def data_step (d dataEs : List (String × Val)) :
    Except GenErr (List (String × Val)) :=
  if dataEs.length = 1 then
    pure (eraseKey d "data")
  else
    (popKey dataEs "name").map fun de2 => setKey d "data" (.d de2)

/-- Reduced configuration computed by `gen_script` (lines 101-108 of the
source) on `generated_user_cfg = copy.deepcopy(user_cfg_dict)`: the
`data` branch above, then pop `pipeline_name`, `model.name` and
`general_pipeline.optimizer.name`. Every subscript and pop acts on the
raw input dictionary, not on the validated object. -/
def reduced_user_cfg (d : List (String × Val)) :
    Except GenErr (List (String × Val)) := do
  let dataVal ← getItem d "data"
  let dataEs ← asDictE dataVal
  let g1 ← data_step d dataEs
  let g2 ← popKey g1 "pipeline_name"
  let mv ← getItem g2 "model"
  let mEs ← asDictE mv
  let mEs2 ← popKey mEs "name"
  let g3 := setKey g2 "model" (.d mEs2)
  let gpv ← getItem g3 "general_pipeline"
  let gpEs ← asDictE gpv
  let optv ← getItem gpEs "optimizer"
  let optEs ← asDictE optv
  let optEs2 ← popKey optEs "name"
  pure (setKey g3 "general_pipeline" (.d (setKey gpEs "optimizer" (.d optEs2))))

/-- Training sub-configuration computed by `gen_script` (lines 110-111)
on `generated_train_cfg = copy.deepcopy(user_cfg_dict["general_pipeline"])`:
pops `optimizer.name` from a copy of the raw `general_pipeline` entry. -/
def generated_train_cfg (d : List (String × Val)) :
    Except GenErr (List (String × Val)) := do
  let gpv ← getItem d "general_pipeline"
  let gpEs ← asDictE gpv
  let optv ← getItem gpEs "optimizer"
  let optEs ← asDictE optv
  let optEs2 ← popKey optEs "name"
  pure (setKey gpEs "optimizer" (.d optEs2))

/-- Modelled from the spec: the Jinja template `nodepred.jinja-py` is not
part of the analysed source; rendering combines the template text with
the render context into the script text. -/
def render_template (t : String) (ctx : List (String × Val)) : String :=
  t ++ pyStr (.d ctx)

/-- Result of script generation: the file operations performed, the
reduced configuration and its literal string, the render context, the
rendered script text, and the final value of the caller's dictionary
(every `pop` in the source acts on a `copy.deepcopy` of the input, never
on the input itself, so the caller's binding passes through unchanged). -/
structure GenScriptOut where
  reads : List String
  writes : List String
  reducedCfg : List (String × Val)
  userCfgStr : String
  renderCfg : List (String × Val)
  rendered : String
  callerDict : Val
deriving Repr

/-- Infallible tail of script generation: the render context built from
the deep copy of the input (`render_cfg` in the source, extended with
`model_code`, `model_class_name`, the dataset code fragments, the reduced
literal string and the full config), and the rendered result. -/
def mkGenScriptOut (cat : Catalog) (user_cfg_dict : Val)
    (es : List (String × Val)) (mName dName : String)
    (g : List (String × Val)) : GenScriptOut :=
  let render0 := es
  let render1 := setKey render0 "model_code" (.s (cat.get_source_code mName))
  let render2 := setKey render1 "model_class_name"
    (.s (cat.get_model_class_name mName))
  let render3 := updateKeys render2
    (cat.get_generated_code_dict dName "**cfg[\x22data\x22]")
  let ucs := "cfg = " ++ pyStr (.d g)
  let render4 := setKey render3 "user_cfg_str" (.s ucs)
  let render5 := setKey render4 "user_cfg" user_cfg_dict
  { reads := [templateFile], writes := [],
    reducedCfg := g, userCfgStr := ucs, renderCfg := render5,
    rendered := render_template cat.templateText render5,
    callerDict := user_cfg_dict }

/-- Script generation, embedding `NodepredPipeline.gen_script`: validate
the raw dictionary, read the template file, build the render context from
a deep copy of the input (model source code, model class name, dataset
code fragments), compute the reduced configuration from a second deep
copy, serialize it as a literal assignment, and render the template. The
fallible steps appear in source order; the infallible dictionary updates
are collected in `mkGenScriptOut`. -/
def gen_script (cat : Catalog) (user_cfg_dict : Val) :
    Except GenErr GenScriptOut := do
  let es ← asDictE user_cfg_dict
  let _user_cfg ← (validate cat user_cfg_dict).mapError GenErr.valErr
  let mv ← getItem es "model"
  let mEs ← asDictE mv
  let mName ← asStrE (← getItem mEs "name")
  let dv ← getItem es "data"
  let dEs ← asDictE dv
  let dName ← asStrE (← getItem dEs "name")
  let g ← reduced_user_cfg es
  let _train ← generated_train_cfg es
  pure (mkGenScriptOut cat user_cfg_dict es mName dName g)

/-- Concrete catalog used for witnesses: two registered datasets and two
registered models, with fixed source snippets and docs. -/
def exCatalog : Catalog :=
  ⟨["cora", "citeseer"], ["gcn", "sage"],
   fun _ => "class GCN(nn.Module): ...",
   fun _ => "GCN",
   fun _ _ => [("data_import_code", .s "from dgl.data import CoraGraphDataset")],
   fun _ => .d [("hidden_size", .s "Hidden size")],
   "nodepred template"⟩

/-- Valid full configuration dictionary as produced by config generation
for (cora, gcn, cpu). -/
def fullInput : Val :=
  .d [("pipeline_name", .s "nodepred"),
      ("device", .s "cpu"),
      ("data", .d [("name", .s "cora")]),
      ("model", .d [("name", .s "gcn")]),
      ("general_pipeline", NodepredPipelineCfg.toVal {})]

/-- Valid configuration dictionary omitting `general_pipeline`, which the
schema fills with its declared default at validation. -/
def noPipelineInput : Val :=
  .d [("pipeline_name", .s "nodepred"),
      ("device", .s "cpu"),
      ("data", .d [("name", .s "cora")]),
      ("model", .d [("name", .s "gcn")])]

/-- Output of script generation on the full example input. -/
def genOutEx : GenScriptOut :=
  match gen_script exCatalog fullInput with
  | .ok o => o
  | .error _ => ⟨[], [], [], "", [], "", .d []⟩

theorem except_pure_ok {ε α : Type} {a b : α} :
    (pure a : Except ε α) = .ok b ↔ a = b := by
  simp [pure, Except.pure]

theorem getItem_ok {es : List (String × Val)} {k : String} {v : Val} :
    getItem es k = .ok v ↔ lookup es k = some v := by
  unfold getItem
  cases lookup es k <;> simp

theorem popKey_ok {es : List (String × Val)} {k : String}
    {r : List (String × Val)} :
    popKey es k = .ok r ↔ (∃ v, lookup es k = some v) ∧ r = eraseKey es k := by
  unfold popKey
  cases lookup es k <;> simp [eq_comm]

theorem asDictE_ok {v : Val} {es : List (String × Val)} :
    asDictE v = .ok es ↔ v = .d es := by
  cases v <;> simp [asDictE]

theorem data_step_ok {d dataEs g1 : List (String × Val)} :
    data_step d dataEs = .ok g1 ↔
      ((dataEs.length = 1 ∧ g1 = eraseKey d "data")
       ∨ (dataEs.length ≠ 1 ∧ (∃ v, lookup dataEs "name" = some v)
           ∧ g1 = setKey d "data" (.d (eraseKey dataEs "name")))) := by
  unfold data_step
  by_cases hlen : dataEs.length = 1
  · simp [hlen, pure, Except.pure, eq_comm]
  · cases hnm : lookup dataEs "name" <;>
      simp [hlen, popKey, hnm, Except.map, eq_comm]

theorem reduced_user_cfg_spec (d g : List (String × Val))
    (h : reduced_user_cfg d = .ok g) :
    lookup g "pipeline_name" = none
    ∧ (∃ m, lookup g "model" = some (.d m) ∧ lookup m "name" = none)
    ∧ (∃ gp opt, lookup g "general_pipeline" = some (.d gp)
        ∧ lookup gp "optimizer" = some (.d opt) ∧ lookup opt "name" = none)
    ∧ (∀ de, lookup d "data" = some (.d de) →
        (de.length = 1 → lookup g "data" = none)
        ∧ (de.length ≠ 1 → lookup g "data" = some (.d (eraseKey de "name")))) := by
  simp only [reduced_user_cfg, except_bind_ok, except_pure_ok] at h
  obtain ⟨dataVal, hdval, dataEs, hdes, g1, hg1, g2, hg2, mv, hmv, mEs, hmes,
    mEs2, hmes2, gpv, hgpv, gpEs, hgpes, optv, hoptv, optEs, hoptes,
    optEs2, hoptes2, hfin⟩ := h
  rw [getItem_ok] at hdval
  rw [asDictE_ok] at hdes
  subst hdes
  rw [popKey_ok] at hg2
  obtain ⟨-, hg2⟩ := hg2
  subst hg2
  rw [asDictE_ok] at hmes
  subst hmes
  rw [popKey_ok] at hmes2
  obtain ⟨-, hmes2⟩ := hmes2
  subst hmes2
  rw [asDictE_ok] at hgpes
  subst hgpes
  rw [asDictE_ok] at hoptes
  subst hoptes
  rw [popKey_ok] at hoptes2
  obtain ⟨-, hoptes2⟩ := hoptes2
  subst hoptes2
  subst hfin
  refine ⟨?_, ?_, ?_, ?_⟩
  · rw [lookup_setKey_ne _ _ _ _ (by decide), lookup_setKey_ne _ _ _ _ (by decide),
      lookup_eraseKey_self]
  · refine ⟨eraseKey mEs "name", ?_, lookup_eraseKey_self _ _⟩
    rw [lookup_setKey_ne _ _ _ _ (by decide), lookup_setKey_self]
  · exact ⟨setKey gpEs "optimizer" (.d (eraseKey optEs "name")),
      eraseKey optEs "name", lookup_setKey_self _ _ _,
      lookup_setKey_self _ _ _, lookup_eraseKey_self _ _⟩
  · intro de hde
    rw [hdval] at hde
    have hdd : dataEs = de := by simpa using hde
    subst hdd
    rw [data_step_ok] at hg1
    rcases hg1 with ⟨hlen, hg1⟩ | ⟨hlen, -, hg1⟩
    · subst hg1
      constructor
      · intro _
        rw [lookup_setKey_ne _ _ _ _ (by decide),
          lookup_setKey_ne _ _ _ _ (by decide),
          lookup_eraseKey_ne _ _ _ (by decide), lookup_eraseKey_self]
      · intro hne
        exact absurd hlen hne
    · subst hg1
      constructor
      · intro h1
        exact absurd h1 hlen
      · intro _
        rw [lookup_setKey_ne _ _ _ _ (by decide),
          lookup_setKey_ne _ _ _ _ (by decide),
          lookup_eraseKey_ne _ _ _ (by decide), lookup_setKey_self]

theorem gen_script_ok_inv (cat : Catalog) (v : Val) (o : GenScriptOut)
    (h : gen_script cat v = .ok o) :
    ∃ es g, asDictE v = .ok es ∧ reduced_user_cfg es = .ok g
      ∧ o.reducedCfg = g ∧ o.userCfgStr = "cfg = " ++ pyStr (.d g)
      ∧ o.reads = [templateFile] ∧ o.writes = [] ∧ o.callerDict = v := by
  simp only [gen_script, except_bind_ok, except_pure_ok] at h
  obtain ⟨es, hes, u, hu, mv, hmv, mEs, hmes, mnv, hmnv, mName, hmn,
    dv, hdv, dEs, hdes, dnv, hdnv, dName, hdn, g, hg, tr, htr, hmk⟩ := h
  subst hmk
  exact ⟨es, g, hes, hg, rfl, rfl, rfl, rfl, rfl⟩

theorem validate_default_pipeline :
    validateNodepredPipelineCfg (NodepredPipelineCfg.toVal {}) = .ok {} := rfl

theorem validate_generated_shape (cat : Catalog) (pn dn mn dev : String)
    (h1 : cat.datasets.contains dn = true)
    (h2 : cat.models.contains mn = true)
    (h3 : dev = "cpu" ∨ dev = "cuda") :
    validate cat
        (.d [("pipeline_name", .s pn), ("device", .s dev),
             ("data", .d [("name", .s dn)]),
             ("model", .d [("name", .s mn)]),
             ("general_pipeline", NodepredPipelineCfg.toVal {})])
      = .ok ⟨pn, dev, [("name", .s dn)], [("name", .s mn)], {}⟩ := by
  have h1m : dn ∈ cat.datasets := by simpa using h1
  have h2m : mn ∈ cat.models := by simpa using h2
  simp [validate, asDictV, reqField, lookup, asStrV, h1m, h2m, h3,
    validate_default_pipeline, bind, Except.bind, pure, Except.pure]

/-- C1: for every valid (dataset, model, device) triple, config
generation produces a document that, once parsed back (comments are
invisible to the YAML parser, modelled by `stripComments`), validates
successfully against the same schema. -/
theorem config_roundtrip_validates (cat : Catalog) (dn mn dev cfgPath : String)
    (h1 : cat.datasets.contains dn = true)
    (h2 : cat.models.contains mn = true)
    (h3 : dev = "cpu" ∨ dev = "cuda") :
    ∃ cm u, get_cfg_func cat dn cfgPath mn dev = .ok (cfgPath, cm)
      ∧ validate cat (stripComments cm) = .ok u := by
  have hv := validate_generated_shape cat "nodepred" dn mn dev h1 h2 h3
  have hA : validate cat (assembleCfg dn mn dev)
      = .ok ⟨"nodepred", dev, [("name", Val.s dn)], [("name", Val.s mn)], {}⟩ := hv
  refine ⟨merge_comment
      (UserConfig.toVal
        ⟨"nodepred", dev, [("name", Val.s dn)], [("name", Val.s mn)], {}⟩)
      (.d [("general_pipeline", pipeline_comments),
           ("model", cat.get_constructor_doc_dict mn)]),
    ⟨"nodepred", dev, [("name", Val.s dn)], [("name", Val.s mn)], {}⟩, ?_, ?_⟩
  · simp [get_cfg_func, hA, bind, Except.bind, pure, Except.pure,
      deep_convert_dict]
  · rw [stripComments_merge_comment]
    exact hv

/-- C1 witness: the round trip at (cora, gcn, cpu) with the concrete
catalog. -/
theorem config_roundtrip_validates_witness :
    ∃ cm u, get_cfg_func exCatalog "cora" "cfg.yml" "gcn" "cpu"
        = .ok ("cfg.yml", cm)
      ∧ validate exCatalog (stripComments cm) = .ok u :=
  config_roundtrip_validates exCatalog "cora" "gcn" "cpu" "cfg.yml"
    rfl rfl (Or.inl rfl)

/-- C2: when the corresponding fields are absent from the input,
validation of the pipeline settings fills in exactly the declared
defaults: node_embed_size = -1, num_epochs = 200, eval_period = 5,
optimizer = name Adam with lr 0.005, loss = CrossEntropyLoss. -/
theorem pipelineCfg_defaults (es : List (String × Val))
    (c : NodepredPipelineCfg)
    (h : validateNodepredPipelineCfg (.d es) = .ok c) :
    (lookup es "node_embed_size" = none → c.node_embed_size = -1)
    ∧ (lookup es "num_epochs" = none → c.num_epochs = 200)
    ∧ (lookup es "eval_period" = none → c.eval_period = 5)
    ∧ (lookup es "optimizer" = none →
        c.optimizer = [("name", Val.s "Adam"), ("lr", Val.flt "0.005")])
    ∧ (lookup es "loss" = none → c.loss = "CrossEntropyLoss") := by
  simp only [validateNodepredPipelineCfg, asDictV, except_bind_ok,
    except_pure_ok] at h
  obtain ⟨es2, hes2, nes, hnes, est, hest, ne, hne, ep, hep, opt, hopt,
    ls, hls, hc⟩ := h
  have hee : es = es2 := by simpa using hes2
  subst hee
  subst hc
  refine ⟨fun hn => ?_, fun hn => ?_, fun hn => ?_, fun hn => ?_, fun hn => ?_⟩
  · simp only [optIntField, hn, Except.ok.injEq] at hnes
    exact hnes.symm
  · simp only [optIntField, hn, Except.ok.injEq] at hne
    exact hne.symm
  · simp only [optIntField, hn, Except.ok.injEq] at hep
    exact hep.symm
  · simp only [optDictField, hn, Except.ok.injEq] at hopt
    exact hopt.symm
  · simp only [optStrField, hn, Except.ok.injEq] at hls
    exact hls.symm

/-- C2 witness: the empty pipeline sub-document receives every default. -/
theorem pipelineCfg_defaults_witness :
    (lookup [] "node_embed_size" = none →
      ({} : NodepredPipelineCfg).node_embed_size = -1)
    ∧ (lookup [] "num_epochs" = none →
      ({} : NodepredPipelineCfg).num_epochs = 200)
    ∧ (lookup [] "eval_period" = none →
      ({} : NodepredPipelineCfg).eval_period = 5)
    ∧ (lookup [] "optimizer" = none →
      ({} : NodepredPipelineCfg).optimizer
        = [("name", Val.s "Adam"), ("lr", Val.flt "0.005")])
    ∧ (lookup [] "loss" = none →
      ({} : NodepredPipelineCfg).loss = "CrossEntropyLoss") :=
  pipelineCfg_defaults [] {} rfl

/-- C3: for every input on which script generation succeeds, the reduced
configuration embedded in the script literal contains no `pipeline_name`
key, no `name` key inside `model`, and no `name` key inside
`general_pipeline.optimizer`. -/
theorem reduced_cfg_omits_discriminators (cat : Catalog) (v : Val)
    (o : GenScriptOut) (h : gen_script cat v = .ok o) :
    lookup o.reducedCfg "pipeline_name" = none
    ∧ (∃ m, lookup o.reducedCfg "model" = some (.d m)
        ∧ lookup m "name" = none)
    ∧ (∃ gp opt, lookup o.reducedCfg "general_pipeline" = some (.d gp)
        ∧ lookup gp "optimizer" = some (.d opt)
        ∧ lookup opt "name" = none) := by
  obtain ⟨es, g, -, hg, hred, -, -, -, -⟩ := gen_script_ok_inv cat v o h
  obtain ⟨p1, p2, p3, -⟩ := reduced_user_cfg_spec es g hg
  rw [hred]
  exact ⟨p1, p2, p3⟩

/-- C3 witness at the full example input. -/
theorem reduced_cfg_omits_discriminators_witness :
    lookup genOutEx.reducedCfg "pipeline_name" = none
    ∧ (∃ m, lookup genOutEx.reducedCfg "model" = some (.d m)
        ∧ lookup m "name" = none)
    ∧ (∃ gp opt, lookup genOutEx.reducedCfg "general_pipeline" = some (.d gp)
        ∧ lookup gp "optimizer" = some (.d opt)
        ∧ lookup opt "name" = none) :=
  reduced_cfg_omits_discriminators exCatalog fullInput genOutEx rfl

/-- C4: in script generation, a single-field dataset descriptor makes the
whole `data` key disappear from the reduced configuration, while a
multi-field descriptor keeps `data` with only its `name` entry removed. -/
theorem reduced_cfg_data_handling (cat : Catalog) (v : Val)
    (o : GenScriptOut) (d de : List (String × Val))
    (h : gen_script cat v = .ok o) (hv : v = .d d)
    (hde : lookup d "data" = some (.d de)) :
    (de.length = 1 → lookup o.reducedCfg "data" = none)
    ∧ (1 < de.length →
        lookup o.reducedCfg "data" = some (.d (eraseKey de "name"))) := by
  obtain ⟨es, g, hes, hg, hred, -, -, -, -⟩ := gen_script_ok_inv cat v o h
  subst hv
  rw [asDictE_ok] at hes
  injection hes with hes2
  subst hes2
  obtain ⟨-, -, -, hdata⟩ := reduced_user_cfg_spec d g hg
  have h4 := hdata de hde
  rw [hred]
  exact ⟨h4.1, fun hlt => h4.2 (by omega)⟩

/-- C4 witness: the example input has a single-field dataset descriptor,
so the reduced configuration omits `data` entirely. -/
theorem reduced_cfg_data_handling_witness :
    (([("name", Val.s "cora")] : List (String × Val)).length = 1 →
      lookup genOutEx.reducedCfg "data" = none)
    ∧ (1 < ([("name", Val.s "cora")] : List (String × Val)).length →
      lookup genOutEx.reducedCfg "data"
        = some (.d (eraseKey [("name", Val.s "cora")] "name"))) :=
  reduced_cfg_data_handling exCatalog fullInput genOutEx
    [("pipeline_name", Val.s "nodepred"), ("device", Val.s "cpu"),
     ("data", Val.d [("name", Val.s "cora")]),
     ("model", Val.d [("name", Val.s "gcn")]),
     ("general_pipeline", NodepredPipelineCfg.toVal {})]
    [("name", Val.s "cora")] rfl rfl rfl

/-- C5: when validation of the assembled configuration fails, config
generation aborts with that error; the write of the output file (the
`.ok` payload of `get_cfg_func`) never happens. -/
theorem cfg_gen_aborts_on_invalid (cat : Catalog)
    (dn cfgPath mn dev e : String)
    (h : validate cat (assembleCfg dn mn dev) = .error e) :
    get_cfg_func cat dn cfgPath mn dev = .error e := by
  simp [get_cfg_func, h, bind, Except.bind]

/-- C5 witness: an unregistered dataset name aborts config generation
with the validation error and no write. -/
theorem cfg_gen_aborts_on_invalid_witness :
    get_cfg_func exCatalog "flickr" "cfg.yml" "gcn" "cpu"
      = .error "data.name: unknown dataset" :=
  cfg_gen_aborts_on_invalid exCatalog "flickr" "cfg.yml" "gcn" "cpu"
    "data.name: unknown dataset" rfl

/-- C6: there is an input dictionary that validates successfully (it
omits `general_pipeline`, which the schema defaults) but on which script
generation fails with a key-lookup error instead of producing a script,
because the reduction pops keys from the raw input dictionary rather
than from the validated object. -/
theorem gen_script_keyerror_on_valid_input :
    (validate exCatalog noPipelineInput).isOk = true
    ∧ gen_script exCatalog noPipelineInput
        = .error (.keyError "general_pipeline") :=
  ⟨rfl, rfl⟩

/-- C7: script generation leaves the caller's dictionary unchanged; all
key removals happen on deep copies, so the input value is returned
untouched. -/
theorem gen_script_preserves_caller_dict (cat : Catalog) (v : Val)
    (o : GenScriptOut) (h : gen_script cat v = .ok o) :
    o.callerDict = v := by
  obtain ⟨-, -, -, -, -, -, -, -, hc⟩ := gen_script_ok_inv cat v o h
  exact hc

/-- C7 witness at the full example input. -/
theorem gen_script_preserves_caller_dict_witness :
    genOutEx.callerDict = fullInput :=
  gen_script_preserves_caller_dict exCatalog fullInput genOutEx rfl

/-- C8 counterexample: the claim that `gen_script` performs no file reads
is false — on a concrete valid input the successful run reads the
template file `nodepred.jinja-py`. -/
theorem gen_script_no_file_io_counterexample :
    ¬ (∀ (cat : Catalog) (v : Val) (o : GenScriptOut),
        gen_script cat v = .ok o → o.reads = []) := by
  intro hall
  have h := hall exCatalog fullInput genOutEx rfl
  have hr : genOutEx.reads = [templateFile] := rfl
  rw [hr] at h
  cases h

/-- C8 (amended): script generation returns the rendered script as a
text value and writes no file, but it does read the pipeline template
file `nodepred.jinja-py`. -/
theorem gen_script_file_io (cat : Catalog) (v : Val) (o : GenScriptOut)
    (h : gen_script cat v = .ok o) :
    o.writes = [] ∧ o.reads = [templateFile] := by
  obtain ⟨-, -, -, -, -, -, hr, hw, -⟩ := gen_script_ok_inv cat v o h
  exact ⟨hw, hr⟩

/-- C8 witness at the full example input. -/
theorem gen_script_file_io_witness :
    genOutEx.writes = [] ∧ genOutEx.reads = [templateFile] :=
  gen_script_file_io exCatalog fullInput genOutEx rfl

/-- C9: the comment merge attaches a comment only at key paths that
exist in the value tree (it is total, so comments at nonexistent paths
are silently dropped rather than failing), and in the generated config
for (cora, gcn, cpu) the key `general_pipeline.num_epochs` carries the
comment "Number of training epochs". -/
theorem merge_comment_structural :
    (∀ (v c : Val) (p : List String) (s0 : String),
        commentAt (merge_comment v c) p = some s0 → pathExists v p = true)
    ∧ ((get_cfg_func exCatalog "cora" "cfg.yml" "gcn" "cpu").toOption.map
        (fun pr => commentAt pr.2 ["general_pipeline", "num_epochs"]))
      = some (some "Number of training epochs") := by
  refine ⟨fun v c p s0 h => commentAt_merge_pathExists p v c s0 h, ?_⟩
  rfl

/-- C9 witness: a comment at an existing path is attached and the path
indeed exists. -/
theorem merge_comment_structural_witness :
    pathExists (.d [("k", Val.i 1)]) ["k"] = true :=
  merge_comment_structural.1 (.d [("k", Val.i 1)]) (.d [("k", Val.s "note")])
    ["k"] "note" rfl

/-- C10: on every successful run of script generation, the reduced
configuration string handed to the renderer equals the text "cfg = "
followed by the literal serialization of the reduced configuration. -/
theorem user_cfg_str_literal (cat : Catalog) (v : Val) (o : GenScriptOut)
    (h : gen_script cat v = .ok o) :
    o.userCfgStr = "cfg = " ++ pyStr (.d o.reducedCfg) := by
  obtain ⟨-, g, -, -, hred, hstr, -, -, -⟩ := gen_script_ok_inv cat v o h
  rw [hstr, hred]

/-- C10 witness at the full example input. -/
theorem user_cfg_str_literal_witness :
    genOutEx.userCfgStr = "cfg = " ++ pyStr (.d genOutEx.reducedCfg) :=
  user_cfg_str_literal exCatalog fullInput genOutEx rfl
